import Mathlib

/-!
Shallow embedding of the console Snake game (`src/snake.js`).

Cells are integer (row, col) pairs; the grid is `GRID_SIZE = 10`.
The random source of `generateFood` (repeated `Math.random` draws) is
modelled as an explicit list of candidate cells consumed in order; the
do-while rejection loop becomes `List.find?` over that list, and a
`none` result models the loop not having terminated within the supplied
draws.  The `setInterval` tick body of `playGame` becomes the pure
function `tick`; the asynchronous keypress handler's direction filter
becomes `acceptDirection`.  The high-score file is modelled as a store
state that is either absent, unparsable, or a parsed JSON value.
-/

namespace Snake

/-- A grid cell: integer coordinates, as in the JS `{row, col}` objects. -/
structure Cell where
  row : Int
  col : Int
deriving DecidableEq, Repr

/-- `GRID_SIZE = 10` from `src/snake.js`. -/
def GRID_SIZE : Int := 10

/-- `INITIAL_SNAKE = [{ row: 5, col: 5 }]`. -/
def INITIAL_SNAKE : List Cell := [⟨5, 5⟩]

/-- The four directions of the `DIRECTIONS` table. -/
inductive Direction where
  | up | down | left | right
deriving DecidableEq, Repr

/-- The `DIRECTIONS` delta table from `src/snake.js`. -/
def DIRECTIONS : Direction → Cell
  | .up => ⟨-1, 0⟩
  | .down => ⟨1, 0⟩
  | .left => ⟨0, -1⟩
  | .right => ⟨0, 1⟩

/-- `segment.row === pos.row && segment.col === pos.col`, the cell-equality
test used by `generateFood`, `isCollision` and the food check. -/
def sameCell (a b : Cell) : Bool :=
  a.row == b.row && a.col == b.col

/-- `isCollision(pos, snake)` from `src/snake.js` lines 71-79: out of
bounds, or coincides with some segment of the list passed in. -/
def isCollision (pos : Cell) (snake : List Cell) : Bool :=
  decide (pos.row < 0) ||
  decide (pos.row ≥ GRID_SIZE) ||
  decide (pos.col < 0) ||
  decide (pos.col ≥ GRID_SIZE) ||
  snake.any (fun segment => sameCell segment pos)

/-- `generateFood(snake)` from lines 59-68: repeatedly draw a random cell
and reject it while it lies on the snake.  The stream of random draws is
the explicit `samples` list; the result is the first non-rejected draw,
`none` when every supplied draw was rejected (the JS loop would still be
running). -/
def generateFood (snake : List Cell) (samples : List Cell) : Option Cell :=
  samples.find? (fun food => ! snake.any (fun segment => sameCell segment food))

/-- The new head `{...snake[0]}` shifted by `DIRECTIONS[direction]`
(lines 120-122). -/
def moveHead (h : Cell) (d : Direction) : Cell :=
  ⟨h.row + (DIRECTIONS d).row, h.col + (DIRECTIONS d).col⟩

/-- Outcome of one `setInterval` tick of `playGame`. -/
inductive TickResult where
  | gameOver (score : Nat)
  | running (snake : List Cell) (food : Cell) (score : Nat)
deriving DecidableEq, Repr

/-- One tick of the game loop (`src/snake.js` lines 119-149): compute the
next head, test `isCollision(head, snake.slice(1))`; on collision report
game over with the current score; otherwise `unshift` the head, and if it
equals the food increment the score and regenerate food, else `pop` the
tail.  `samples` feeds `generateFood`; the result is `none` when the
snake is empty (`snake[0]` is undefined in JS; the live snake never is)
or when the supplied draws do not suffice to regenerate food. -/
def tick (samples : List Cell) (snake : List Cell) (direction : Direction)
    (food : Cell) (score : Nat) : Option TickResult :=
  match snake with
  | [] => none
  | h :: rest =>
    let head := moveHead h direction
    if isCollision head rest then
      some (.gameOver score)
    else
      let snake' := head :: h :: rest
      if sameCell head food then
        match generateFood snake' samples with
        | some food' => some (.running snake' food' (score + 1))
        | none => none
      else
        some (.running snake'.dropLast food score)

/-- `isOppositeDirection(dir1, dir2)` from lines 167-172. -/
def isOppositeDirection (dir1 dir2 : Direction) : Bool :=
  (dir1 == .up && dir2 == .down) ||
  (dir1 == .down && dir2 == .up) ||
  (dir1 == .left && dir2 == .right) ||
  (dir1 == .right && dir2 == .left)

/-- The keypress handler's direction filter (lines 161-164): a requested
direction replaces the last accepted one unless it is its exact
opposite, in which case the last accepted direction is kept. -/
def acceptDirection (requested lastAccepted : Direction) : Direction :=
  if isOppositeDirection requested lastAccepted then lastAccepted else requested

/-- A persisted high-score entry `{name, score, date}`. -/
structure Entry where
  name : String
  score : Nat
  date : String
deriving DecidableEq, Repr

/-- The order imposed by the comparator `(a, b) => b.score - a.score`:
`a` may precede `b` when `b.score ≤ a.score` (descending by score). -/
def scoreOrder (a b : Entry) : Prop := b.score ≤ a.score

instance : DecidableRel scoreOrder := fun a b => Nat.decLe b.score a.score

instance : IsTotal Entry scoreOrder := ⟨fun a b => Nat.le_total b.score a.score⟩

instance : IsTrans Entry scoreOrder := ⟨fun _ _ _ hab hbc => Nat.le_trans hbc hab⟩

/-- The stable sort `highScores.sort((a, b) => b.score - a.score)` of
`saveHighScore`, modelled as a stable insertion sort under `scoreOrder`. -/
def sortDesc (l : List Entry) : List Entry :=
  l.insertionSort scoreOrder

/-- The pure core of `saveHighScore` (lines 31-37): push the new entry,
sort descending by score, `splice(5)` keeping the top 5. -/
def appendEntry (table : List Entry) (e : Entry) : List Entry :=
  (sortDesc (table ++ [e])).take 5

/-- A JSON value, the result type of `JSON.parse`. -/
inductive Json where
  | null
  | bool (b : Bool)
  | num (n : Int)
  | str (s : String)
  | arr (xs : List Json)
  | obj (fields : List (String × Json))

/-- The backing store of the high-score file: absent, present but not
valid JSON, or present with parsed value `v`. -/
inductive StoreState where
  | absent
  | corrupt (raw : String)
  | valid (v : Json)

/-- `fs.readFile` followed by `JSON.parse`: throws (as `Except.error`)
when the file is absent or its contents are unparsable. -/
def readAndParse : StoreState → Except String Json
  | .absent => .error "ENOENT"
  | .corrupt _ => .error "SyntaxError"
  | .valid v => .ok v

/-- `loadHighScores()` from lines 21-28: return the parsed file contents,
and on any exception (missing or corrupt file) return `[]`.  A total
function: no exception reaches the caller. -/
def loadHighScores (s : StoreState) : Json :=
  match readAndParse s with
  | .ok v => v
  | .error _ => .arr []

/-- The game-over path of the tick (lines 124-137): stop the interval and
hand the current score to `saveHighScore`; `none` when the tick did not
end the game. -/
def tickAndFinish (samples : List Cell) (snake : List Cell)
    (direction : Direction) (food : Cell) (score : Nat)
    (table : List Entry) (name date : String) : Option (List Entry) :=
  match tick samples snake direction food score with
  | some (.gameOver finalScore) => some (appendEntry table ⟨name, finalScore, date⟩)
  | _ => none

/-- All `GRID_SIZE × GRID_SIZE` cells of the board, an exhaustive draw
sequence for `generateFood`. -/
def allCells : List Cell :=
  (List.range 10).flatMap (fun r => (List.range 10).map (fun c => ⟨r, c⟩))

/-- Seven-entry raw JSON array, NOT sorted descending, as stored file
contents exercising the no-validation path of `loadHighScores`. -/
def overfullRaw : List Json :=
  [.num 1, .num 9, .num 2, .num 8, .num 3, .num 7, .num 4]

lemma sameCell_iff {a b : Cell} : sameCell a b = true ↔ a = b := by
  cases a; cases b
  simp [sameCell, Cell.mk.injEq]

lemma sameCell_self (a : Cell) : sameCell a a = true := sameCell_iff.mpr rfl

lemma isCollision_of_mem {x : Cell} {l : List Cell} (hx : x ∈ l) :
    isCollision x l = true := by
  simp only [isCollision, Bool.or_eq_true, List.any_eq_true]
  exact Or.inr ⟨x, hx, sameCell_self x⟩

/-- Claim C6: direction acceptance returns the requested direction unless
it is the exact opposite of the last accepted one, meaning their
`DIRECTIONS` deltas cancel (up↔down, left↔right), in which case the last
accepted direction is retained; concretely
`acceptDirection up down = down` and `acceptDirection left up = left`. -/
theorem acceptDirection_rejects_exact_opposite :
    (∀ requested lastAccepted : Direction,
      acceptDirection requested lastAccepted =
        if (DIRECTIONS requested).row + (DIRECTIONS lastAccepted).row = 0 ∧
           (DIRECTIONS requested).col + (DIRECTIONS lastAccepted).col = 0
        then lastAccepted else requested) ∧
    acceptDirection .up .down = .down ∧
    acceptDirection .left .up = .left := by
  refine ⟨fun r l => ?_, rfl, rfl⟩
  cases r <;> cases l <;> decide

/-- Claim C7: appending an entry always yields a table sorted descending
by score of length at most 5, and folding the scores
[3,1,4,1,5,9,2,6] over the empty table produces exactly the descending
score list [9,6,5,4,3]. -/
theorem appendEntry_sorted_top5 (table : List Entry) (e : Entry) :
    List.Sorted scoreOrder (appendEntry table e) ∧
    (appendEntry table e).length ≤ 5 ∧
    (([3, 1, 4, 1, 5, 9, 2, 6] : List Nat).foldl
        (fun t s => appendEntry t ⟨"p", s, "d"⟩) []).map Entry.score
      = [9, 6, 5, 4, 3] := by
  refine ⟨?_, ?_, by decide⟩
  · exact List.Pairwise.sublist (List.take_sublist 5 _)
      (List.sorted_insertionSort scoreOrder (table ++ [e]))
  · simp [appendEntry]

/-- Claim C8: loading the high scores never surfaces an error: when the
backing file is absent or its contents fail to parse, `loadHighScores`
catches the exception and returns the empty table (`loadHighScores` is a
total function, so no exception reaches the caller). -/
theorem loadHighScores_failure_empty :
    loadHighScores .absent = .arr [] ∧
    ∀ raw : String, loadHighScores (.corrupt raw) = .arr [] :=
  ⟨rfl, fun _ => rfl⟩

/-- Claim C10: when the file parses, `loadHighScores` returns the parsed
JSON value exactly as-is — no shape validation, re-sorting or
truncation: a 7-element unsorted array and even a non-array value come
back unchanged; the sorted-length-≤5 shape is imposed only by
`appendEntry` at save time. -/
theorem loadHighScores_returns_parsed_unchanged :
    (∀ v : Json, loadHighScores (.valid v) = v) ∧
    loadHighScores (.valid (.arr overfullRaw)) = .arr overfullRaw ∧
    overfullRaw.length = 7 ∧
    loadHighScores (.valid (.num 3)) = .num 3 ∧
    (∀ (table : List Entry) (e : Entry), (appendEntry table e).length ≤ 5) :=
  ⟨fun _ => rfl, rfl, rfl, rfl,
    fun table e => by simp [appendEntry]⟩

/-- Unfolding of `tick` on a nonempty snake. -/
lemma tick_cons (samples : List Cell) (h : Cell) (rest : List Cell)
    (direction : Direction) (food : Cell) (score : Nat) :
    tick samples (h :: rest) direction food score =
      if isCollision (moveHead h direction) rest then some (.gameOver score)
      else if sameCell (moveHead h direction) food then
        match generateFood (moveHead h direction :: h :: rest) samples with
        | some food' => some (.running (moveHead h direction :: h :: rest) food' (score + 1))
        | none => none
      else some (.running (moveHead h direction :: h :: rest).dropLast food score) := rfl

/-- Case analysis of a tick that left the game running: no collision, and
either the head reached the food (snake grown, food regenerated, score
incremented) or it did not (tail dropped, food and score kept). -/
lemma tick_running_cases {samples : List Cell} {h : Cell} {rest : List Cell}
    {direction : Direction} {food : Cell} {score : Nat}
    {s' : List Cell} {f' : Cell} {sc' : Nat}
    (ht : tick samples (h :: rest) direction food score = some (.running s' f' sc')) :
    isCollision (moveHead h direction) rest = false ∧
    ((moveHead h direction = food ∧ s' = moveHead h direction :: h :: rest ∧
        generateFood (moveHead h direction :: h :: rest) samples = some f' ∧
        sc' = score + 1) ∨
      (moveHead h direction ≠ food ∧
        s' = (moveHead h direction :: h :: rest).dropLast ∧ f' = food ∧ sc' = score)) := by
  rw [tick_cons] at ht
  by_cases hc : isCollision (moveHead h direction) rest
  · rw [if_pos hc] at ht
    exact absurd ht (by simp)
  · rw [if_neg hc] at ht
    refine ⟨Bool.not_eq_true _ ▸ hc, ?_⟩
    by_cases hsc : sameCell (moveHead h direction) food
    · rw [if_pos hsc] at ht
      cases hg : generateFood (moveHead h direction :: h :: rest) samples with
      | none => rw [hg] at ht; exact absurd ht (by simp)
      | some f0 =>
        rw [hg] at ht
        simp only [Option.some.injEq, TickResult.running.injEq] at ht
        obtain ⟨hs, hf, hscr⟩ := ht
        exact Or.inl ⟨sameCell_iff.mp hsc, hs.symm, congrArg some hf, hscr.symm⟩
    · rw [if_neg hsc] at ht
      simp only [Option.some.injEq, TickResult.running.injEq] at ht
      obtain ⟨hs, hf, hscr⟩ := ht
      exact Or.inr ⟨fun he => hsc (sameCell_iff.mpr he), hs.symm, hf.symm, hscr.symm⟩

/-- Claim C1: the tick tests the computed next head against
`snake.slice(1)` — the body with the current head excluded and the tail
included — so it reports game over exactly when `isCollision` holds of
the next head and that body; in particular a move onto the current tail
cell is a collision, for every food position (whether or not food would
be eaten on that step). -/
theorem tick_collision_checks_body_with_tail (samples : List Cell) (h : Cell)
    (rest : List Cell) (direction : Direction) (food : Cell) (score : Nat) :
    (tick samples (h :: rest) direction food score = some (.gameOver score) ↔
      isCollision (moveHead h direction) rest = true) ∧
    (∀ (hne : rest ≠ []), moveHead h direction = rest.getLast hne →
      tick samples (h :: rest) direction food score = some (.gameOver score)) := by
  have hmain : tick samples (h :: rest) direction food score = some (.gameOver score) ↔
      isCollision (moveHead h direction) rest = true := by
    rw [tick_cons]
    constructor
    · intro ht
      by_contra hc
      rw [Bool.not_eq_true] at hc
      rw [hc] at ht
      simp only [Bool.false_eq_true, if_false] at ht
      split at ht
      · split at ht
        · exact absurd ht (by simp)
        · exact absurd ht (by simp)
      · exact absurd ht (by simp)
    · intro hc
      rw [if_pos hc]
  refine ⟨hmain, fun hne hlast => hmain.mpr (isCollision_of_mem ?_)⟩
  rw [hlast]
  exact List.getLast_mem hne

/-- Witness for C1: a length-4 snake whose head moves onto its own tail
cell, with the food also on that tail cell, still ends in game over. -/
theorem tick_collision_checks_body_with_tail_witness :
    tick [] [⟨5,5⟩, ⟨5,6⟩, ⟨6,6⟩, ⟨6,5⟩] .down ⟨6,5⟩ 3 = some (.gameOver 3) := by
  have hne : ([⟨5,6⟩, ⟨6,6⟩, ⟨6,5⟩] : List Cell) ≠ [] := by decide
  exact (tick_collision_checks_body_with_tail [] ⟨5,5⟩ [⟨5,6⟩, ⟨6,6⟩, ⟨6,5⟩]
    .down ⟨6,5⟩ 3).2 hne rfl

/-- Claim C2: a tick that leaves the game running either grows the snake
by exactly one cell with the score incremented (exactly when the new
head reached the food) or conserves its length with the score kept —
never both, never neither. -/
theorem tick_grows_or_conserves (samples : List Cell) (h : Cell) (rest : List Cell)
    (direction : Direction) (food : Cell) (score : Nat)
    (s' : List Cell) (f' : Cell) (sc' : Nat)
    (ht : tick samples (h :: rest) direction food score = some (.running s' f' sc')) :
    (moveHead h direction = food →
      s'.length = (h :: rest).length + 1 ∧ sc' = score + 1) ∧
    (moveHead h direction ≠ food →
      s'.length = (h :: rest).length ∧ sc' = score) := by
  obtain ⟨-, hcase | hcase⟩ := tick_running_cases ht
  · obtain ⟨heq, hs, -, hscr⟩ := hcase
    exact ⟨fun _ => ⟨by simp [hs], hscr⟩, fun hne => absurd heq hne⟩
  · obtain ⟨hne, hs, -, hscr⟩ := hcase
    exact ⟨fun heq => absurd heq hne, fun _ => ⟨by simp [hs], hscr⟩⟩

/-- Witness for C2: a length-1 snake eats the food directly in front of
it and grows to length 2 with the score incremented. -/
theorem tick_grows_or_conserves_witness :
    ([⟨5,6⟩, ⟨5,5⟩] : List Cell).length = ([⟨5,5⟩] : List Cell).length + 1 ∧
    (1 : Nat) = 0 + 1 :=
  (tick_grows_or_conserves [⟨0,0⟩] ⟨5,5⟩ [] .right ⟨5,6⟩ 0
    [⟨5,6⟩, ⟨5,5⟩] ⟨0,0⟩ 1 (by decide)).1 (by decide)

/-- Claim C3: when the next head collides, the tick ends the game with
the current score, and the game-over path hands exactly that score to
the high-score store (`saveHighScore`); concretely, a length-1 snake at
(0,0) heading up computes head row −1 and ends in game over with score
0, for every food position. -/
theorem tick_gameOver_reports_and_saves (samples : List Cell) (h : Cell)
    (rest : List Cell) (direction : Direction) (food : Cell) (score : Nat)
    (table : List Entry) (name date : String) :
    (isCollision (moveHead h direction) rest = true →
      tick samples (h :: rest) direction food score = some (.gameOver score) ∧
      tickAndFinish samples (h :: rest) direction food score table name date =
        some (appendEntry table ⟨name, score, date⟩)) ∧
    tick samples [⟨0,0⟩] .up food 0 = some (.gameOver 0) := by
  constructor
  · intro hc
    have h1 : tick samples (h :: rest) direction food score = some (.gameOver score) := by
      rw [tick_cons, if_pos hc]
    exact ⟨h1, by simp [tickAndFinish, h1]⟩
  · have hc0 : isCollision (moveHead ⟨0,0⟩ .up) ([] : List Cell) = true := by decide
    rw [tick_cons, if_pos hc0]

/-- Witness for C3: a snake at (0,5) heading up collides with the wall;
the tick reports score 7 and the finish path appends that score. -/
theorem tick_gameOver_reports_and_saves_witness :
    tick [] [⟨0,5⟩] .up ⟨9,9⟩ 7 = some (.gameOver 7) ∧
    tickAndFinish [] [⟨0,5⟩] .up ⟨9,9⟩ 7 [] "p" "d" =
      some (appendEntry [] ⟨"p", 7, "d"⟩) :=
  (tick_gameOver_reports_and_saves [] ⟨0,5⟩ [] .up ⟨9,9⟩ 7 [] "p" "d").1 (by decide)

/-- Claim C4: `generateFood` only returns a cell lying on no segment of
the snake passed in, and at the eat-step call site the regenerated food
avoids every cell of the grown snake — the newly prepended head and the
kept tail included. -/
theorem generateFood_avoids_snake (snake samples : List Cell) (f : Cell)
    (h : Cell) (rest : List Cell) (direction : Direction) (food : Cell)
    (score : Nat) (s' : List Cell) (f' : Cell) :
    (generateFood snake samples = some f →
      ∀ seg ∈ snake, sameCell seg f = false) ∧
    (tick samples (h :: rest) direction food score =
        some (.running s' f' (score + 1)) →
      ∀ seg ∈ s', sameCell seg f' = false) := by
  have base : ∀ (sn sa : List Cell) (c : Cell), generateFood sn sa = some c →
      ∀ seg ∈ sn, sameCell seg c = false := by
    intro sn sa c hfind seg hseg
    have hp := List.find?_some hfind
    simp only [Bool.not_eq_eq_eq_not, Bool.not_true, List.any_eq_false] at hp
    exact Bool.not_eq_true _ ▸ hp seg hseg
  refine ⟨base snake samples f, fun ht => ?_⟩
  obtain ⟨-, hcase | hcase⟩ := tick_running_cases ht
  · obtain ⟨-, hs, hg, -⟩ := hcase
    exact hs ▸ base _ samples f' hg
  · obtain ⟨-, -, -, hscr⟩ := hcase
    exact absurd hscr (by simp)

/-- Witness for C4: after eating, the food regenerated at (0,0) lies on
neither cell of the grown snake [(5,6), (5,5)]. -/
theorem generateFood_avoids_snake_witness :
    sameCell ⟨5,6⟩ ⟨0,0⟩ = false ∧ sameCell ⟨5,5⟩ ⟨0,0⟩ = false := by
  have hall := (generateFood_avoids_snake [⟨5,6⟩, ⟨5,5⟩] [⟨0,0⟩] ⟨0,0⟩
    ⟨5,5⟩ [] .right ⟨5,6⟩ 0 [⟨5,6⟩, ⟨5,5⟩] ⟨0,0⟩).2 (by decide)
  exact ⟨hall ⟨5,6⟩ (by simp), hall ⟨5,5⟩ (by simp)⟩

/-- Claim C5: the score tracks the snake length: the initial snake has
length 1 (score starts at 0), and every running tick preserves
`score + 1 = length` while never decreasing the score. -/
theorem score_equals_length_minus_one (samples : List Cell) (h : Cell)
    (rest : List Cell) (direction : Direction) (food : Cell) (score : Nat)
    (s' : List Cell) (f' : Cell) (sc' : Nat) :
    INITIAL_SNAKE.length = 1 ∧
    (score + 1 = (h :: rest).length →
      tick samples (h :: rest) direction food score = some (.running s' f' sc') →
      sc' + 1 = s'.length ∧ score ≤ sc') := by
  refine ⟨rfl, fun hinv ht => ?_⟩
  obtain ⟨-, hcase | hcase⟩ := tick_running_cases ht
  · obtain ⟨-, hs, -, hscr⟩ := hcase
    subst hscr
    refine ⟨?_, Nat.le_succ score⟩
    simp [hs, ← hinv]
  · obtain ⟨-, hs, -, hscr⟩ := hcase
    subst hscr
    refine ⟨?_, Nat.le_refl sc'⟩
    simp [hs, ← hinv]

/-- Witness for C5: a non-eating tick of a length-1 snake with score 0
keeps score 0 = length 1 − 1. -/
theorem score_equals_length_minus_one_witness :
    (0 : Nat) + 1 = ([⟨5,6⟩] : List Cell).length ∧ (0 : Nat) ≤ 0 :=
  (score_equals_length_minus_one [] ⟨5,5⟩ [] .right ⟨9,9⟩ 0
    [⟨5,6⟩] ⟨9,9⟩ 0).2 (by decide) (by decide)

/-- Claim C9: modelling the random draws by the exhaustive cell
enumeration `allCells`, `generateFood` terminates with a free cell for
every snake occupying fewer than all `GRID_SIZE × GRID_SIZE` grid cells
(the rejection loop returns as soon as a free draw appears, and such a
draw exists). -/
theorem generateFood_terminates_when_cell_free (snake : List Cell)
    (hlt : (allCells.filter
        (fun c => snake.any (fun seg => sameCell seg c))).length < allCells.length) :
    ∃ f, generateFood snake allCells = some f ∧
      snake.any (fun seg => sameCell seg f) = false := by
  obtain ⟨c, hc, hfc⟩ := List.length_filter_lt_length_iff_exists.mp hlt
  rw [Bool.not_eq_true] at hfc
  have hsome : (allCells.find?
      (fun food => ! snake.any (fun seg => sameCell seg food))).isSome = true := by
    rw [List.find?_isSome]
    exact ⟨c, hc, by simp [hfc]⟩
  obtain ⟨f, hf⟩ := Option.isSome_iff_exists.mp hsome
  refine ⟨f, hf, ?_⟩
  have hp := List.find?_some hf
  simpa using hp

/-- Witness for C9: for the length-1 snake at (5,5) the exhaustive draw
sequence yields a food cell off the snake. -/
theorem generateFood_terminates_when_cell_free_witness :
    ∃ f, generateFood [⟨5,5⟩] allCells = some f ∧
      ([⟨5,5⟩] : List Cell).any (fun seg => sameCell seg f) = false :=
  generateFood_terminates_when_cell_free [⟨5,5⟩] (by decide)

end Snake
